import Mathlib

/-!
Verification of the CPTS-Companion mindmap consistency checker
(`check_mindmaps.py`) against its natural-language specification.

The program loads two JSON collections — `modules` (records expected to
carry a `title` field) and `mindmaps` (records optionally carrying an
integer `module_id`) — builds the set of referenced module ids, and
prints a report: the two totals followed either by the list of modules
whose 1-based position is referenced by no mindmap, or by an
all-covered message.  Any exception is caught at the top level and
printed as a single `Error: <description>` line.

The embedding below models well-formed records as Lean structures
(`Module`, `Mindmap`), the Python `set` as a `Finset Int`, the printed
output as a list of lines (`List String`), and the exception flow of
the missing-list construction as `Except String`.  Python `str(i)` on
a non-negative integer is modelled by the decimal renderer `natStr`.
-/

namespace CPTS

/-- Well-formed module record: a JSON object whose `title` field is either a
string (`some t`) or absent (`none`).  A module has no id field; its identity
is its 1-based position in the modules list. -/
structure Module where
  title : Option String
deriving DecidableEq, Repr

/-- Well-formed mindmap record: a JSON object whose `module_id` field is
either an integer (`some v`) or absent / JSON `null` (`none`); Python's
`mm.get('module_id') is not None` treats the two identically. -/
structure Mindmap where
  module_id : Option Int
deriving DecidableEq, Repr

/-- Embeds lines 11-14 of `check_mindmaps.py`:

    mindmap_module_ids = set()
    for mm in mindmaps:
        if mm.get('module_id') is not None:
            mindmap_module_ids.add(mm['module_id'])
-/
def mindmap_module_ids (mindmaps : List Mindmap) : Finset Int :=
  mindmaps.foldl
    (fun s mm =>
      match mm.module_id with
      | some v => insert v s
      | none => s)
    ∅

/-- Fuel-based decimal digit renderer: `natStrAux fuel n` is the decimal
digit list of `n` (most significant first) whenever `n < fuel`. -/
def natStrAux : Nat → Nat → List Char
  | 0, _ => []
  | fuel + 1, n =>
    if n < 10 then [Nat.digitChar n]
    else natStrAux fuel (n / 10) ++ [Nat.digitChar (n % 10)]

/-- Decimal digit list of a natural number, most significant digit first;
models Python `str(i)` for the non-negative integers printed by the
program. -/
def natStrData (n : Nat) : List Char :=
  natStrAux (n + 1) n

/-- Decimal string of a natural number (Python `str(i)`). -/
def natStr (n : Nat) : String :=
  String.mk (natStrData n)

/-- Embeds the f-string of line 22, `f"ID {i}: {module['title']}"`. -/
def entryLine (i : Nat) (t : String) : String :=
  "ID " ++ natStr i ++ ": " ++ t

/-- Embeds the loop of lines 19-22, carrying the 1-based counter `i` of
`enumerate(modules, 1)`:

    missing_modules = []
    for i, module in enumerate(modules, 1):
        if i not in mindmap_module_ids:
            missing_modules.append(f"ID {i}: {module['title']}")

Reading `module['title']` on a record without a `title` field raises
`KeyError('title')`, whose `str` is `'title'`; the exception aborts the
loop, discards the partial list and reaches the top-level handler, which is
modelled by the `Except.error` result. -/
def missingModulesFrom : List Module → Nat → Finset Int → Except String (List String)
  | [], _, _ => Except.ok []
  | m :: rest, i, refs =>
    if (i : Int) ∈ refs then missingModulesFrom rest (i + 1) refs
    else
      match m.title with
      | none => Except.error "\x27title\x27"
      | some t =>
        match missingModulesFrom rest (i + 1) refs with
        | Except.error e => Except.error e
        | Except.ok l => Except.ok (entryLine i t :: l)

/-- Missing-module list of the whole run: the loop started at position 1. -/
def missing_modules (modules : List Module) (refs : Finset Int) :
    Except String (List String) :=
  missingModulesFrom modules 1 refs

/-- Embeds lines 24-29 (and the handler of lines 31-32 for an exception
raised after the counts were printed): what is printed after the two count
lines.  `print("\nModules missing mindmaps:")` emits an empty line followed
by the header, hence the leading `""`. -/
def reportTail (modules : List Module) (refs : Finset Int) : List String :=
  match missing_modules modules refs with
  | Except.error e => ["Error: " ++ e]
  | Except.ok l =>
    if l = [] then ["", "All modules have at least one mindmap."]
    else "" :: "Modules missing mindmaps:" :: l

/-- Output of a run whose two loads succeeded, as the list of printed lines:
lines 16-17 print the counts, then the missing list is built and printed
(lines 19-29), any exception being caught at lines 31-32. -/
def report (modules : List Module) (mindmaps : List Mindmap) : List String :=
  ("Total Modules: " ++ natStr modules.length)
    :: ("Total Mindmaps: " ++ natStr mindmaps.length)
    :: reportTail modules (mindmap_module_ids mindmaps)

/-- Whole-program output of `check_mindmaps()`.  The argument is the result
of the two `open`/`json.load` calls of lines 5-9: `Except.error e` when
either file is unreadable or malformed (nothing was printed before those
lines, and the handler prints the single error line), `Except.ok` with the
two decoded lists otherwise. -/
def check_mindmaps (load : Except String (List Module × List Mindmap)) :
    List String :=
  match load with
  | Except.error e => ["Error: " ++ e]
  | Except.ok (modules, mindmaps) => report modules mindmaps

/-- Specification-side view of one iteration of the loop of lines 19-22: the
report line that position `p.1` (module `p.2`) contributes, `none` when the
position is referenced.  Used to state closed forms of `missingModulesFrom`. -/
def entryOpt (refs : Finset Int) (p : Nat × Module) : Option String :=
  if (p.1 : Int) ∈ refs then none
  else p.2.title.map (fun t => entryLine p.1 t)

/-- Specification-side companion of `entryOpt` that keeps the position and
title as a pair instead of rendering the line, used to speak about the ids
of the emitted entries. -/
def entryPairOpt (refs : Finset Int) (p : Nat × Module) : Option (Nat × String) :=
  if (p.1 : Int) ∈ refs then none
  else p.2.title.map (fun t => (p.1, t))

/-- Program state for the frame claim: the two loaded input lists and the
standard-output stream (list of printed lines). -/
structure ProgState where
  modules : List Module
  mindmaps : List Mindmap
  stdout : List String
deriving DecidableEq, Repr

/-- State transformer of a run whose loads succeeded: the function body only
reads `modules` and `mindmaps` (lines 11-29 contain no assignment to either)
and every `print` appends a line to standard output. -/
def runCheck (s : ProgState) : ProgState :=
  { modules := s.modules
    mindmaps := s.mindmaps
    stdout := s.stdout ++ report s.modules s.mindmaps }

/-! ### Decimal rendering: digits, injectivity -/

/-- Characters produced by `Nat.digitChar` below 10 are decimal digits. -/
theorem digitChar_isDigit : ∀ n : Nat, n < 10 → (Nat.digitChar n).isDigit = true := by
  decide

/-- Distinct values below 10 render to distinct digit characters. -/
theorem digitChar_inj :
    ∀ a : Nat, a < 10 → ∀ b : Nat, b < 10 → Nat.digitChar a = Nat.digitChar b → a = b := by
  decide

/-- Renderings do not depend on the fuel, as long as it suffices. -/
theorem natStrAux_fuel : ∀ n : Nat, ∀ f1 : Nat, n < f1 → ∀ f2 : Nat, n < f2 →
    natStrAux f1 n = natStrAux f2 n := by
  intro n
  induction n using Nat.strong_induction_on with
  | _ n ih =>
    intro f1 h1 f2 h2
    cases f1 with
    | zero => omega
    | succ g1 =>
      cases f2 with
      | zero => omega
      | succ g2 =>
        rw [natStrAux, natStrAux]
        by_cases h : n < 10
        · rw [if_pos h, if_pos h]
        · rw [if_neg h, if_neg h,
            ih (n / 10) (Nat.div_lt_self (by omega) (by omega)) g1 (by omega) g2 (by omega)]

/-- Unfolding equation of `natStrData` for one-digit numbers. -/
theorem natStrData_eq_of_lt {n : Nat} (h : n < 10) : natStrData n = [Nat.digitChar n] := by
  rw [natStrData, natStrAux, if_pos h]

/-- Unfolding equation of `natStrData` for numbers of several digits. -/
theorem natStrData_eq_of_ge {n : Nat} (h : ¬n < 10) :
    natStrData n = natStrData (n / 10) ++ [Nat.digitChar (n % 10)] := by
  rw [natStrData, natStrData, natStrAux, if_neg h,
    natStrAux_fuel (n / 10) n (Nat.div_lt_self (by omega) (by omega)) (n / 10 + 1) (by omega)]

/-- Decimal rendering is never empty. -/
theorem natStrData_ne_nil (n : Nat) : natStrData n ≠ [] := by
  by_cases h : n < 10
  · rw [natStrData_eq_of_lt h]
    simp
  · rw [natStrData_eq_of_ge h]
    simp

/-- Every character of a decimal rendering is a digit. -/
theorem mem_natStrData_isDigit (n : Nat) : ∀ c ∈ natStrData n, c.isDigit = true := by
  induction n using Nat.strong_induction_on with
  | _ n ih =>
    intro c hc
    by_cases h : n < 10
    · rw [natStrData_eq_of_lt h] at hc
      simp only [List.mem_singleton] at hc
      subst hc
      exact digitChar_isDigit n h
    · rw [natStrData_eq_of_ge h] at hc
      simp only [List.mem_append, List.mem_singleton] at hc
      rcases hc with hc | hc
      · exact ih (n / 10) (Nat.div_lt_self (by omega) (by omega)) c hc
      · subst hc
        exact digitChar_isDigit (n % 10) (Nat.mod_lt _ (by omega))

/-- No decimal rendering contains a colon. -/
theorem colon_not_mem_natStrData (n : Nat) : ':' ∉ natStrData n := fun hc =>
  absurd (mem_natStrData_isDigit n ':' hc) (by decide)

/-- Decimal rendering is injective. -/
theorem natStrData_inj : ∀ m : Nat, ∀ n : Nat, natStrData m = natStrData n → m = n := by
  intro m
  induction m using Nat.strong_induction_on with
  | _ m ih =>
    intro n h
    by_cases hm : m < 10 <;> by_cases hn : n < 10
    · rw [natStrData_eq_of_lt hm, natStrData_eq_of_lt hn] at h
      simp only [List.cons.injEq, and_true] at h
      exact digitChar_inj m hm n hn h
    · rw [natStrData_eq_of_lt hm, natStrData_eq_of_ge hn] at h
      have hlen := congrArg List.length h
      simp only [List.length_singleton, List.length_append] at hlen
      exact absurd (List.length_eq_zero.mp (by omega)) (natStrData_ne_nil (n / 10))
    · rw [natStrData_eq_of_ge hm, natStrData_eq_of_lt hn] at h
      have hlen := congrArg List.length h
      simp only [List.length_singleton, List.length_append] at hlen
      exact absurd (List.length_eq_zero.mp (by omega)) (natStrData_ne_nil (m / 10))
    · rw [natStrData_eq_of_ge hm, natStrData_eq_of_ge hn] at h
      have h2 := congrArg List.reverse h
      simp only [List.reverse_append, List.reverse_singleton, List.singleton_append,
        List.cons.injEq, List.reverse_inj] at h2
      have hmod : m % 10 = n % 10 :=
        digitChar_inj _ (Nat.mod_lt _ (by omega)) _ (Nat.mod_lt _ (by omega)) h2.1
      have hdiv : m / 10 = n / 10 :=
        ih (m / 10) (Nat.div_lt_self (by omega) (by omega)) (n / 10) h2.2
      omega

/-! ### Report line shapes -/

/-- Character-level shape of a missing-module report line. -/
theorem entryLine_data (i : Nat) (t : String) :
    (entryLine i t).data = 'I' :: 'D' :: ' ' :: (natStrData i ++ ':' :: ' ' :: t.data) := by
  simp [entryLine, natStr, String.data_append]

/-- Unique separator: if an occurrence of `x` is known not to occur in the two
prefixes, splitting at it is unambiguous. -/
theorem append_cons_inj {α : Type u_1} {x : α} :
    ∀ a b r₁ r₂ : List α, x ∉ a → x ∉ b → a ++ x :: r₁ = b ++ x :: r₂ →
      a = b ∧ r₁ = r₂ := by
  intro a
  induction a with
  | nil =>
    intro b r₁ r₂ _ hb h
    cases b with
    | nil => simpa using h
    | cons y ys =>
      simp only [List.nil_append, List.cons_append, List.cons.injEq] at h
      exact absurd (h.1 ▸ List.mem_cons_self y ys) hb
  | cons z zs ih =>
    intro b r₁ r₂ ha hb h
    cases b with
    | nil =>
      simp only [List.nil_append, List.cons_append, List.cons.injEq] at h
      exact absurd (h.1.symm ▸ List.mem_cons_self z zs) ha
    | cons y ys =>
      simp only [List.cons_append, List.cons.injEq] at h
      obtain ⟨rfl, h2⟩ := h
      have hrec := ih ys r₁ r₂ (fun hx => ha (List.mem_cons_of_mem _ hx))
        (fun hx => hb (List.mem_cons_of_mem _ hx)) h2
      exact ⟨by rw [hrec.1], hrec.2⟩

/-- Two missing-module report lines coincide only for the same position and
the same title. -/
theorem entryLine_inj {i j : Nat} {t u : String} (h : entryLine i t = entryLine j u) :
    i = j ∧ t = u := by
  have hd := congrArg String.data h
  rw [entryLine_data, entryLine_data] at hd
  simp only [List.cons.injEq, true_and] at hd
  have hsplit := append_cons_inj (natStrData i) (natStrData j) (' ' :: t.data)
    (' ' :: u.data) (colon_not_mem_natStrData i) (colon_not_mem_natStrData j) hd
  refine ⟨natStrData_inj i j hsplit.1, String.ext ?_⟩
  have := hsplit.2
  simpa using this

/-- Two strings with different first characters differ. -/
theorem string_ne_of_head_ne {s t : String} (h : s.data.head? ≠ t.data.head?) : s ≠ t :=
  fun he => h (he ▸ rfl)

/-- Missing-module report lines start with `I`. -/
theorem entryLine_head (i : Nat) (t : String) : (entryLine i t).data.head? = some 'I' := by
  rw [entryLine_data]
  rfl

/-! ### The Referenced-ID set -/

/-- Fold characterization of the set-building loop, accumulator generalized. -/
theorem mem_foldl_insert (l : List Mindmap) :
    ∀ (s : Finset Int) (v : Int),
      (v ∈ l.foldl
        (fun s mm =>
          match mm.module_id with
          | some w => insert w s
          | none => s) s) ↔ (v ∈ s ∨ ∃ mm ∈ l, mm.module_id = some v) := by
  induction l with
  | nil => simp
  | cons mm rest ih =>
    intro s v
    simp only [List.foldl_cons]
    rw [ih]
    cases hmm : mm.module_id with
    | none => simp [hmm]
    | some w =>
      simp only [hmm, Finset.mem_insert, List.mem_cons]
      constructor
      · rintro ((rfl | hs) | ⟨mm2, h2, h3⟩)
        · exact Or.inr ⟨mm, Or.inl rfl, hmm⟩
        · exact Or.inl hs
        · exact Or.inr ⟨mm2, Or.inr h2, h3⟩
      · rintro (hs | ⟨mm2, (rfl | h2), h3⟩)
        · exact Or.inl (Or.inr hs)
        · rw [hmm] at h3
          exact Or.inl (Or.inl (Option.some.inj h3).symm)
        · exact Or.inr ⟨mm2, h2, h3⟩

/-- Membership in the Referenced-ID set is exactly being mentioned by some
mindmap record. -/
theorem mem_mindmap_module_ids {mindmaps : List Mindmap} {v : Int} :
    v ∈ mindmap_module_ids mindmaps ↔ ∃ mm ∈ mindmaps, mm.module_id = some v := by
  unfold mindmap_module_ids
  rw [mem_foldl_insert]
  simp

/-! ### The missing-module loop -/

/-- Positional membership in `List.enumFrom`. -/
theorem mem_enumFrom_iff {α : Type u_1} (l : List α) :
    ∀ (n : Nat) (p : Nat × α),
      p ∈ l.enumFrom n ↔ (n ≤ p.1 ∧ l.get? (p.1 - n) = some p.2) := by
  induction l with
  | nil => simp
  | cons a as ih =>
    intro n p
    obtain ⟨k, x⟩ := p
    rw [List.enumFrom_cons]
    simp only [List.mem_cons, Prod.mk.injEq]
    rw [ih (n + 1) (k, x)]
    constructor
    · rintro (⟨rfl, rfl⟩ | ⟨h1, h2⟩)
      · simp
      · refine ⟨by omega, ?_⟩
        rw [show k - n = (k - (n + 1)) + 1 by omega]
        simpa using h2
    · rintro ⟨h1, h2⟩
      by_cases hk : k = n
      · subst hk
        simp only [Nat.sub_self, List.get?_cons_zero, Option.some.injEq] at h2
        exact Or.inl ⟨rfl, h2.symm⟩
      · refine Or.inr ⟨by omega, ?_⟩
        cases hdn : k - n with
        | zero => omega
        | succ d =>
          rw [hdn] at h2
          rw [show k - (n + 1) = d by omega]
          simpa using h2

/-- Positions in `List.enumFrom n l` are strictly increasing. -/
theorem pairwise_fst_lt_enumFrom {α : Type u_1} (l : List α) :
    ∀ n : Nat, (l.enumFrom n).Pairwise (fun p q => p.1 < q.1) := by
  induction l with
  | nil => simp
  | cons a as ih =>
    intro n
    rw [List.enumFrom_cons]
    refine List.pairwise_cons.mpr ⟨?_, ih (n + 1)⟩
    intro q hq
    have := ((mem_enumFrom_iff as (n + 1) q).mp hq).1
    simpa using by omega

/-- Closed form of the missing-module loop when every module carries a
title: it succeeds and returns one line per unreferenced position, in
enumeration order. -/
theorem missingModulesFrom_eq_ok (modules : List Module) :
    ∀ (i : Nat) (refs : Finset Int),
      (∀ m ∈ modules, m.title ≠ none) →
      missingModulesFrom modules i refs =
        Except.ok ((List.enumFrom i modules).filterMap (entryOpt refs)) := by
  induction modules with
  | nil => intro i refs _; simp [missingModulesFrom]
  | cons m rest ih =>
    intro i refs hwf
    have hwf' : ∀ m2 ∈ rest, m2.title ≠ none :=
      fun m2 h2 => hwf m2 (List.mem_cons_of_mem m h2)
    rw [List.enumFrom_cons, List.filterMap_cons]
    by_cases hi : (i : Int) ∈ refs
    · rw [missingModulesFrom, if_pos hi, ih (i + 1) refs hwf']
      simp [entryOpt, hi]
    · have ht := hwf m (List.mem_cons_self m rest)
      cases htt : m.title with
      | none => exact absurd htt ht
      | some t =>
        rw [missingModulesFrom, if_neg hi, htt, ih (i + 1) refs hwf']
        simp [entryOpt, hi, htt]

/-- The missing-module loop raises (Python: the `KeyError` escapes) exactly
when some enumerated module is unreferenced and has no title. -/
theorem missingModulesFrom_error_iff (modules : List Module) :
    ∀ (i : Nat) (refs : Finset Int),
      (∃ e, missingModulesFrom modules i refs = Except.error e) ↔
        ∃ p ∈ List.enumFrom i modules, (p.1 : Int) ∉ refs ∧ p.2.title = none := by
  induction modules with
  | nil => intro i refs; simp [missingModulesFrom]
  | cons m rest ih =>
    intro i refs
    rw [List.enumFrom_cons]
    simp only [List.mem_cons]
    constructor
    · rintro ⟨e, he⟩
      rw [missingModulesFrom] at he
      by_cases hi : (i : Int) ∈ refs
      · rw [if_pos hi] at he
        obtain ⟨p, hp, h2⟩ := (ih (i + 1) refs).mp ⟨e, he⟩
        exact ⟨p, Or.inr hp, h2⟩
      · rw [if_neg hi] at he
        cases htt : m.title with
        | none => exact ⟨(i, m), Or.inl rfl, hi, htt⟩
        | some t =>
          rw [htt] at he
          cases hrec : missingModulesFrom rest (i + 1) refs with
          | error e2 =>
            obtain ⟨p, hp, h2⟩ := (ih (i + 1) refs).mp ⟨e2, hrec⟩
            exact ⟨p, Or.inr hp, h2⟩
          | ok l => rw [hrec] at he; exact absurd he (by simp)
    · rintro ⟨p, (rfl | hp), hnotin, hnone⟩
      · rw [missingModulesFrom, if_neg hnotin, hnone]
        exact ⟨_, rfl⟩
      · rw [missingModulesFrom]
        by_cases hi : (i : Int) ∈ refs
        · rw [if_pos hi]
          exact (ih (i + 1) refs).mpr ⟨p, hp, hnotin, hnone⟩
        · rw [if_neg hi]
          cases htt : m.title with
          | none => exact ⟨_, rfl⟩
          | some t =>
            obtain ⟨e, he⟩ := (ih (i + 1) refs).mpr ⟨p, hp, hnotin, hnone⟩
            rw [he]
            exact ⟨e, rfl⟩

/-- The only error the missing-module loop can produce is the string
representation of `KeyError('title')`. -/
theorem missingModulesFrom_error_eq (modules : List Module) :
    ∀ (i : Nat) (refs : Finset Int) (e : String),
      missingModulesFrom modules i refs = Except.error e → e = "\x27title\x27" := by
  induction modules with
  | nil => intro i refs e he; simp [missingModulesFrom] at he
  | cons m rest ih =>
    intro i refs e he
    rw [missingModulesFrom] at he
    by_cases hi : (i : Int) ∈ refs
    · rw [if_pos hi] at he
      exact ih (i + 1) refs e he
    · rw [if_neg hi] at he
      cases htt : m.title with
      | none =>
        rw [htt] at he
        exact (Except.error.inj he).symm
      | some t =>
        rw [htt] at he
        cases hrec : missingModulesFrom rest (i + 1) refs with
        | error e2 =>
          rw [hrec] at he
          exact (Except.error.inj he) ▸ ih (i + 1) refs e2 hrec
        | ok l => rw [hrec] at he; exact absurd he (by simp)

/-- The missing-module loop returns the empty list when every enumerated
position is referenced; no title is ever read. -/
theorem missingModulesFrom_all_covered (modules : List Module) :
    ∀ (i : Nat) (refs : Finset Int),
      (∀ k : Nat, i ≤ k → k < i + modules.length → (k : Int) ∈ refs) →
      missingModulesFrom modules i refs = Except.ok [] := by
  induction modules with
  | nil => intro i refs _; simp [missingModulesFrom]
  | cons m rest ih =>
    intro i refs hcov
    have hi : (i : Int) ∈ refs := hcov i (Nat.le_refl i) (by simp)
    rw [missingModulesFrom, if_pos hi]
    exact ih (i + 1) refs (fun k h1 h2 => hcov k (by omega) (by simp at h2 ⊢; omega))

/-- Inserting an id that lies outside the enumerated range does not change
the missing-module loop. -/
theorem missingModulesFrom_insert_out_of_range (modules : List Module) :
    ∀ (i : Nat) (refs : Finset Int) (v : Int),
      (∀ k : Nat, i ≤ k → k < i + modules.length → (k : Int) ≠ v) →
      missingModulesFrom modules i (insert v refs) = missingModulesFrom modules i refs := by
  induction modules with
  | nil => intro i refs v _; simp [missingModulesFrom]
  | cons m rest ih =>
    intro i refs v hout
    have hne : (i : Int) ≠ v := hout i (Nat.le_refl i) (by simp)
    have hrec := ih (i + 1) refs v
      (fun k h1 h2 => hout k (by omega) (by simp at h2 ⊢; omega))
    by_cases hi : (i : Int) ∈ refs
    · rw [missingModulesFrom, if_pos (Finset.mem_insert.mpr (Or.inr hi)),
        missingModulesFrom, if_pos hi]
      exact hrec
    · have hni : (i : Int) ∉ insert v refs := by
        rw [Finset.mem_insert]
        rintro (h | h)
        · exact hne h
        · exact hi h
      rw [missingModulesFrom, if_neg hni, missingModulesFrom, if_neg hi]
      cases htt : m.title with
      | none => rfl
      | some t => rw [hrec]

/-! ### Distinguishing report lines -/

/-- First character of the first count line. -/
theorem total_modules_head (n : Nat) :
    ("Total Modules: " ++ natStr n).data.head? = some 'T' := rfl

/-- First character of the second count line. -/
theorem total_mindmaps_head (n : Nat) :
    ("Total Mindmaps: " ++ natStr n).data.head? = some 'T' := rfl

/-- Missing-module lines differ from the first count line. -/
theorem entryLine_ne_total_modules (i : Nat) (t : String) (n : Nat) :
    entryLine i t ≠ "Total Modules: " ++ natStr n :=
  string_ne_of_head_ne (by rw [entryLine_head, total_modules_head]; decide)

/-- Missing-module lines differ from the second count line. -/
theorem entryLine_ne_total_mindmaps (i : Nat) (t : String) (n : Nat) :
    entryLine i t ≠ "Total Mindmaps: " ++ natStr n :=
  string_ne_of_head_ne (by rw [entryLine_head, total_mindmaps_head]; decide)

/-- Missing-module lines differ from the blank separator line. -/
theorem entryLine_ne_blank (i : Nat) (t : String) : entryLine i t ≠ "" :=
  string_ne_of_head_ne (by rw [entryLine_head]; decide)

/-- Missing-module lines differ from the missing-list header. -/
theorem entryLine_ne_header (i : Nat) (t : String) :
    entryLine i t ≠ "Modules missing mindmaps:" :=
  string_ne_of_head_ne (by rw [entryLine_head]; decide)

/-- Missing-module lines differ from the all-covered message. -/
theorem entryLine_ne_all_covered (i : Nat) (t : String) :
    entryLine i t ≠ "All modules have at least one mindmap." :=
  string_ne_of_head_ne (by rw [entryLine_head]; decide)

/-- Rendering the paired form of a loop iteration gives its line form. -/
theorem entryOpt_eq_map (refs : Finset Int) (p : Nat × Module) :
    entryOpt refs p = (entryPairOpt refs p).map (fun q => entryLine q.1 q.2) := by
  unfold entryOpt entryPairOpt
  by_cases hi : (p.1 : Int) ∈ refs
  · simp [hi]
  · cases p.2.title <;> simp [hi]

/-- The paired form keeps the enumeration position. -/
theorem entryPairOpt_fst {refs : Finset Int} {p : Nat × Module} {q : Nat × String}
    (h : entryPairOpt refs p = some q) : q.1 = p.1 := by
  unfold entryPairOpt at h
  by_cases hi : (p.1 : Int) ∈ refs
  · rw [if_pos hi] at h
    exact absurd h (by simp)
  · rw [if_neg hi] at h
    cases htt : p.2.title with
    | none => rw [htt] at h; exact absurd h (by simp)
    | some t =>
      rw [htt] at h
      have h2 : (p.1, t) = q := Option.some.inj h
      rw [← h2]

/-- Membership of ids in [1, len] rephrased for the loop lemmas. -/
theorem not_mem_mindmap_module_ids_iff {mindmaps : List Mindmap} {v : Int} :
    v ∉ mindmap_module_ids mindmaps ↔ ∀ mmp ∈ mindmaps, mmp.module_id ≠ some v := by
  rw [mem_mindmap_module_ids]
  push_neg
  rfl

/-! ### The claims -/

/-- C4: for every pair of well-formed inputs, the reported Total Modules
count is the length of the modules list and the reported Total Mindmaps
count is the length of the mindmaps list, and these two lines come first
and in that order. -/
theorem C4_counts (modules : List Module) (mindmaps : List Mindmap) :
    ∃ rest, report modules mindmaps =
      ("Total Modules: " ++ natStr modules.length)
        :: ("Total Mindmaps: " ++ natStr mindmaps.length) :: rest :=
  ⟨reportTail modules (mindmap_module_ids mindmaps), rfl⟩

/-- C9: the run is read-only on its inputs: the modules and mindmaps lists
of the state are unchanged by `runCheck` (the error line, when an error
occurs mid-run, is part of `report`, so this covers both the success and
the error path), and the only effect is appending lines to standard
output. -/
theorem C9_read_only (s : ProgState) :
    (runCheck s).modules = s.modules ∧ (runCheck s).mindmaps = s.mindmaps ∧
      ∃ out, (runCheck s).stdout = s.stdout ++ out :=
  ⟨rfl, rfl, report s.modules s.mindmaps, rfl⟩

/-- C7: when every id in [1, len(modules)] is referenced (vacuously so for
an empty modules list), the report is the two counts, a blank line and the
all-covered message, and contains no per-id missing-module line. -/
theorem C7_all_covered (modules : List Module) (mindmaps : List Mindmap)
    (hcov : ∀ k : Nat, 1 ≤ k → k ≤ modules.length →
      (k : Int) ∈ mindmap_module_ids mindmaps) :
    report modules mindmaps =
      [("Total Modules: " ++ natStr modules.length),
       ("Total Mindmaps: " ++ natStr mindmaps.length),
       "", "All modules have at least one mindmap."] ∧
    ∀ i t, entryLine i t ∉ report modules mindmaps := by
  have hok : missing_modules modules (mindmap_module_ids mindmaps) = Except.ok [] :=
    missingModulesFrom_all_covered modules 1 (mindmap_module_ids mindmaps)
      (fun k h1 h2 => hcov k h1 (by omega))
  have htail : reportTail modules (mindmap_module_ids mindmaps) =
      ["", "All modules have at least one mindmap."] := by
    unfold reportTail
    rw [hok]
    rfl
  have hrep : report modules mindmaps =
      [("Total Modules: " ++ natStr modules.length),
       ("Total Mindmaps: " ++ natStr mindmaps.length),
       "", "All modules have at least one mindmap."] := by
    unfold report
    rw [htail]
  refine ⟨hrep, ?_⟩
  intro i t hmem
  rw [hrep] at hmem
  simp only [List.mem_cons, List.not_mem_nil, or_false] at hmem
  rcases hmem with h | h | h | h
  · exact entryLine_ne_total_modules i t modules.length h
  · exact entryLine_ne_total_mindmaps i t mindmaps.length h
  · exact entryLine_ne_blank i t h
  · exact entryLine_ne_all_covered i t h

/-- Witness for C7 at the empty inputs (spec scenario 3). -/
theorem C7_all_covered_witness :
    report [] [] =
      ["Total Modules: 0", "Total Mindmaps: 0",
       "", "All modules have at least one mindmap."] ∧
    ∀ i t, entryLine i t ∉ report [] [] :=
  C7_all_covered [] [] (fun k h1 h2 => False.elim (by simp at h2; omega))

/-- C3: the title of a module is consulted only when the module's position
is unreferenced: the loop errors (with exactly the `KeyError` text) if and
only if some enumerated module both is referenced by no mindmap and lacks a
title, so a referenced module without a title triggers nothing. -/
theorem C3_lazy_title (modules : List Module) (mindmaps : List Mindmap) :
    ((∃ e, missing_modules modules (mindmap_module_ids mindmaps) = Except.error e) ↔
      ∃ p ∈ List.enumFrom 1 modules,
        (∀ mmp ∈ mindmaps, mmp.module_id ≠ some (p.1 : Int)) ∧ p.2.title = none) ∧
    ∀ e, missing_modules modules (mindmap_module_ids mindmaps) = Except.error e →
      e = "\x27title\x27" := by
  constructor
  · unfold missing_modules
    rw [missingModulesFrom_error_iff]
    simp only [not_mem_mindmap_module_ids_iff]
  · intro e he
    exact missingModulesFrom_error_eq modules 1 (mindmap_module_ids mindmaps) e he

/-- C2 counterexample: with one module record lacking a `title` field and no
mindmaps, both loads succeed, the loop then raises, and the program prints
three lines — the two counts followed by the error line — so on this failure
the entire output is not exactly one `Error:` line. -/
theorem C2_counterexample :
    check_mindmaps (Except.ok ([Module.mk none], [])) =
      ["Total Modules: 1", "Total Mindmaps: 0", "Error: \x27title\x27"] ∧
    (check_mindmaps (Except.ok ([Module.mk none], []))).length ≠ 1 :=
  ⟨rfl, by decide⟩

/-- C2 (amended): a load failure (file unreadable or malformed document)
produces exactly the single line `Error: <description>`; a failure after
the counts were printed (missing title on a missing module) produces the
two count lines followed by exactly one error line, and no report lines
(header, entries or all-covered message) are emitted. -/
theorem C2_error_containment (load : Except String (List Module × List Mindmap)) :
    (∀ e, load = Except.error e → check_mindmaps load = ["Error: " ++ e]) ∧
    (∀ modules mindmaps e, load = Except.ok (modules, mindmaps) →
      missing_modules modules (mindmap_module_ids mindmaps) = Except.error e →
      check_mindmaps load =
        [("Total Modules: " ++ natStr modules.length),
         ("Total Mindmaps: " ++ natStr mindmaps.length),
         ("Error: " ++ e)]) := by
  constructor
  · rintro e rfl
    rfl
  · rintro modules mindmaps e rfl herr
    show report modules mindmaps = _
    unfold report reportTail
    rw [herr]

/-- Witness for C2: a failing load prints one line; a failing loop prints
the counts and then the error line. -/
theorem C2_error_containment_witness :
    check_mindmaps (Except.error "No such file or directory") =
      ["Error: No such file or directory"] ∧
    check_mindmaps (Except.ok ([Module.mk none], [])) =
      ["Total Modules: 1", "Total Mindmaps: 0", "Error: \x27title\x27"] :=
  ⟨(C2_error_containment (Except.error "No such file or directory")).1 _ rfl,
   (C2_error_containment (Except.ok ([Module.mk none], []))).2
     [Module.mk none] [] "\x27title\x27" rfl rfl⟩

/-- C5 counterexample: dropping a null-`module_id` mindmap record changes
the Total Mindmaps line, so the whole output is not identical to a run
without that record. -/
theorem C5_counterexample :
    report [Module.mk (some "A")] [Mindmap.mk none] ≠
      report [Module.mk (some "A")] [] := by
  decide

/-- C5 (amended): mindmap records with absent or null `module_id` contribute
nothing to the Referenced-ID set and cause no error, so they never suppress
a missing-module entry: everything after the two count lines is identical
to a run without those records; only the Total Mindmaps count differs. -/
theorem C5_null_tolerance (modules : List Module) (mindmaps : List Mindmap) :
    mindmap_module_ids mindmaps =
      mindmap_module_ids (mindmaps.filter (fun mm => mm.module_id.isSome)) ∧
    (report modules mindmaps).head? =
      (report modules (mindmaps.filter (fun mm => mm.module_id.isSome))).head? ∧
    (report modules mindmaps).drop 2 =
      (report modules (mindmaps.filter (fun mm => mm.module_id.isSome))).drop 2 := by
  have hset : mindmap_module_ids mindmaps =
      mindmap_module_ids (mindmaps.filter (fun mm => mm.module_id.isSome)) := by
    apply Finset.ext
    intro v
    rw [mem_mindmap_module_ids, mem_mindmap_module_ids]
    constructor
    · rintro ⟨mm, hm, hv⟩
      exact ⟨mm, List.mem_filter.mpr ⟨hm, by rw [hv]; rfl⟩, hv⟩
    · rintro ⟨mm, hm, hv⟩
      exact ⟨mm, (List.mem_filter.mp hm).1, hv⟩
  refine ⟨hset, rfl, ?_⟩
  show reportTail modules (mindmap_module_ids mindmaps) =
    reportTail modules (mindmap_module_ids (mindmaps.filter (fun mm => mm.module_id.isSome)))
  rw [hset]

/-- C8: the Referenced-ID set has set semantics: appending a duplicate of a
mindmap record already present (same non-null `module_id`) leaves the set —
which by construction contains no duplicates — unchanged, and changes only
the Total Mindmaps count of the report, not the missing list or message. -/
theorem C8_set_semantics (modules : List Module) (mindmaps : List Mindmap)
    (mm : Mindmap) (v : Int) (hmem : mm ∈ mindmaps) (hv : mm.module_id = some v) :
    mindmap_module_ids (mindmaps ++ [mm]) = mindmap_module_ids mindmaps ∧
    (mindmap_module_ids mindmaps).val.Nodup ∧
    report modules (mindmaps ++ [mm]) =
      ("Total Modules: " ++ natStr modules.length)
        :: ("Total Mindmaps: " ++ natStr (mindmaps.length + 1))
        :: (report modules mindmaps).drop 2 := by
  have hset : mindmap_module_ids (mindmaps ++ [mm]) = mindmap_module_ids mindmaps := by
    unfold mindmap_module_ids
    rw [List.foldl_append]
    simp only [List.foldl_cons, List.foldl_nil]
    rw [hv]
    exact Finset.insert_eq_self.mpr (mem_mindmap_module_ids.mpr ⟨mm, hmem, hv⟩)
  refine ⟨hset, (mindmap_module_ids mindmaps).nodup, ?_⟩
  unfold report
  rw [hset, List.length_append]
  simp only [List.length_singleton]
  rfl

/-- Witness for C8 at spec scenario 2 (duplicate reference). -/
theorem C8_set_semantics_witness :
    mindmap_module_ids ([Mindmap.mk (some 1)] ++ [Mindmap.mk (some 1)]) =
      mindmap_module_ids [Mindmap.mk (some 1)] ∧
    (mindmap_module_ids [Mindmap.mk (some 1)]).val.Nodup ∧
    report [Module.mk (some "A")] ([Mindmap.mk (some 1)] ++ [Mindmap.mk (some 1)]) =
      "Total Modules: 1" :: "Total Mindmaps: 2"
        :: (report [Module.mk (some "A")] [Mindmap.mk (some 1)]).drop 2 :=
  C8_set_semantics [Module.mk (some "A")] [Mindmap.mk (some 1)] (Mindmap.mk (some 1)) 1
    (List.mem_singleton.mpr rfl) rfl

/-- C10: a dangling reference is silently ignored: appending a mindmap
record whose `module_id` lies outside `[1, len(modules)]` leaves the
missing-module loop's result unchanged (still no error on well-formed
modules) and changes only the Total Mindmaps count of the report. -/
theorem C10_dangling (modules : List Module) (mindmaps : List Mindmap)
    (mm : Mindmap) (v : Int)
    (hwf : ∀ m ∈ modules, m.title ≠ none)
    (hv : mm.module_id = some v)
    (hout : v < 1 ∨ (modules.length : Int) < v) :
    (∃ l, missing_modules modules (mindmap_module_ids (mindmaps ++ [mm])) = Except.ok l ∧
          missing_modules modules (mindmap_module_ids mindmaps) = Except.ok l) ∧
    report modules (mindmaps ++ [mm]) =
      ("Total Modules: " ++ natStr modules.length)
        :: ("Total Mindmaps: " ++ natStr (mindmaps.length + 1))
        :: (report modules mindmaps).drop 2 := by
  have hset : mindmap_module_ids (mindmaps ++ [mm]) =
      insert v (mindmap_module_ids mindmaps) := by
    unfold mindmap_module_ids
    rw [List.foldl_append]
    simp only [List.foldl_cons, List.foldl_nil]
    rw [hv]
  have hrange : ∀ k : Nat, 1 ≤ k → k < 1 + modules.length → (k : Int) ≠ v := by
    intro k h1 h2 heq
    rcases hout with h | h
    · omega
    · omega
  have hmiss : missing_modules modules (mindmap_module_ids (mindmaps ++ [mm])) =
      missing_modules modules (mindmap_module_ids mindmaps) := by
    unfold missing_modules
    rw [hset]
    exact missingModulesFrom_insert_out_of_range modules 1 (mindmap_module_ids mindmaps) v hrange
  have hok := missingModulesFrom_eq_ok modules 1 (mindmap_module_ids mindmaps) hwf
  have htail : reportTail modules (mindmap_module_ids (mindmaps ++ [mm])) =
      reportTail modules (mindmap_module_ids mindmaps) := by
    unfold reportTail
    rw [hmiss]
  refine ⟨⟨_, ?_, hok⟩, ?_⟩
  · rw [hmiss]
    exact hok
  · unfold report
    rw [htail, List.length_append]
    simp only [List.length_singleton]
    rfl

/-- Witness for C10: a reference to id 99 with a single module. -/
theorem C10_dangling_witness :
    (∃ l, missing_modules [Module.mk (some "A")]
            (mindmap_module_ids ([] ++ [Mindmap.mk (some 99)])) = Except.ok l ∧
          missing_modules [Module.mk (some "A")]
            (mindmap_module_ids []) = Except.ok l) ∧
    report [Module.mk (some "A")] ([] ++ [Mindmap.mk (some 99)]) =
      "Total Modules: 1" :: "Total Mindmaps: 1"
        :: (report [Module.mk (some "A")] []).drop 2 :=
  C10_dangling [Module.mk (some "A")] [] (Mindmap.mk (some 99)) 99
    (by decide) rfl (Or.inr (by decide))

/-- Membership of a per-id line in the full report is membership in the
missing list, once the loop succeeded. -/
theorem mem_report_iff (modules : List Module) (mindmaps : List Mindmap)
    (i : Nat) (t : String) (l : List String)
    (hok : missing_modules modules (mindmap_module_ids mindmaps) = Except.ok l) :
    (entryLine i t ∈ report modules mindmaps ↔ entryLine i t ∈ l) := by
  have htail : reportTail modules (mindmap_module_ids mindmaps) =
      if l = [] then ["", "All modules have at least one mindmap."]
      else "" :: "Modules missing mindmaps:" :: l := by
    unfold reportTail
    rw [hok]
  unfold report
  rw [htail]
  by_cases hnil : l = []
  · rw [if_pos hnil, hnil]
    simp only [List.mem_cons, List.not_mem_nil, or_false, iff_false]
    rintro (h | h | h | h)
    · exact entryLine_ne_total_modules i t modules.length h
    · exact entryLine_ne_total_mindmaps i t mindmaps.length h
    · exact entryLine_ne_blank i t h
    · exact entryLine_ne_all_covered i t h
  · rw [if_neg hnil]
    simp only [List.mem_cons]
    constructor
    · rintro (h | h | h | h | h)
      · exact absurd h (entryLine_ne_total_modules i t modules.length)
      · exact absurd h (entryLine_ne_total_mindmaps i t mindmaps.length)
      · exact absurd h (entryLine_ne_blank i t)
      · exact absurd h (entryLine_ne_header i t)
      · exact h
    · intro h
      exact Or.inr (Or.inr (Or.inr (Or.inr h)))

/-- C1: for well-formed inputs, the module at 1-based position `k` appears
in the missing-modules report exactly when no mindmap record carries
`module_id = k`. -/
theorem C1_coverage (modules : List Module) (mindmaps : List Mindmap)
    (k : Nat) (m : Module) (t : String)
    (hwf : ∀ mo ∈ modules, mo.title ≠ none)
    (hk : 1 ≤ k) (hm : modules.get? (k - 1) = some m) (ht : m.title = some t) :
    (entryLine k t ∈ report modules mindmaps ↔
      ∀ mmp ∈ mindmaps, mmp.module_id ≠ some (k : Int)) := by
  have hok := missingModulesFrom_eq_ok modules 1 (mindmap_module_ids mindmaps) hwf
  rw [mem_report_iff modules mindmaps k t _ hok, List.mem_filterMap]
  constructor
  · rintro ⟨p, hp, hpe⟩
    unfold entryOpt at hpe
    by_cases hpi : (p.1 : Int) ∈ mindmap_module_ids mindmaps
    · rw [if_pos hpi] at hpe
      exact absurd hpe (by simp)
    · rw [if_neg hpi] at hpe
      cases htt : p.2.title with
      | none => rw [htt] at hpe; exact absurd hpe (by simp)
      | some tp =>
        rw [htt] at hpe
        have h2 : entryLine p.1 tp = entryLine k t := Option.some.inj hpe
        have h3 := entryLine_inj h2
        rw [h3.1] at hpi
        intro mmp hmmp heq
        exact hpi (mem_mindmap_module_ids.mpr ⟨mmp, hmmp, heq⟩)
  · intro hno
    have hkn : (k : Int) ∉ mindmap_module_ids mindmaps :=
      not_mem_mindmap_module_ids_iff.mpr hno
    refine ⟨(k, m), ?_, ?_⟩
    · rw [mem_enumFrom_iff]
      exact ⟨hk, hm⟩
    · unfold entryOpt
      rw [if_neg hkn, ht]
      rfl

/-- Witness for C1 at spec scenario 1 restricted to position 2: the entry
for module B is present exactly because no mindmap references id 2. -/
theorem C1_coverage_witness :
    entryLine 2 "B" ∈
        report [Module.mk (some "A"), Module.mk (some "B")] [Mindmap.mk (some 1)] ↔
      ∀ mmp ∈ [Mindmap.mk (some 1)], mmp.module_id ≠ some ((2 : Nat) : Int) :=
  C1_coverage [Module.mk (some "A"), Module.mk (some "B")] [Mindmap.mk (some 1)]
    2 (Module.mk (some "B")) "B" (by decide) (by decide) rfl rfl

/-- C6: when the missing-module list is non-empty, its entries are rendered
from position-title pairs whose positions are strictly ascending. -/
theorem C6_ascending (modules : List Module) (mindmaps : List Mindmap)
    (l : List String)
    (hwf : ∀ m ∈ modules, m.title ≠ none)
    (hl : missing_modules modules (mindmap_module_ids mindmaps) = Except.ok l)
    (hne : l ≠ []) :
    ∃ entries : List (Nat × String),
      l = entries.map (fun p => entryLine p.1 p.2) ∧
      (entries.map Prod.fst).Pairwise (fun a b => a < b) := by
  have hok := missingModulesFrom_eq_ok modules 1 (mindmap_module_ids mindmaps) hwf
  have hL : l = (List.enumFrom 1 modules).filterMap (entryOpt (mindmap_module_ids mindmaps)) :=
    Except.ok.inj (hl.symm.trans hok)
  refine ⟨(List.enumFrom 1 modules).filterMap (entryPairOpt (mindmap_module_ids mindmaps)),
    ?_, ?_⟩
  · have hfun : entryOpt (mindmap_module_ids mindmaps) =
        fun x => Option.map (fun q : Nat × String => entryLine q.1 q.2)
          (entryPairOpt (mindmap_module_ids mindmaps) x) :=
      funext (fun p => entryOpt_eq_map (mindmap_module_ids mindmaps) p)
    rw [hL, List.map_filterMap, hfun]
  · rw [List.pairwise_map, List.pairwise_filterMap]
    refine List.Pairwise.imp ?_ (pairwise_fst_lt_enumFrom modules 1)
    intro a b hab x hx y hy
    rw [entryPairOpt_fst (Option.mem_def.mp hx), entryPairOpt_fst (Option.mem_def.mp hy)]
    exact hab

/-- Witness for C6 with two unreferenced modules. -/
theorem C6_ascending_witness :
    ∃ entries : List (Nat × String),
      ["ID 1: A", "ID 2: B"] = entries.map (fun p => entryLine p.1 p.2) ∧
      (entries.map Prod.fst).Pairwise (fun a b => a < b) :=
  C6_ascending [Module.mk (some "A"), Module.mk (some "B")] [] ["ID 1: A", "ID 2: B"]
    (by decide) rfl (by decide)

end CPTS
